import Mathlib

/-!
# ConfidentialGame — shallow embedding and verification

A shallow embedding of the Solidity contract `ConfidentialGame` (a
confidential city builder on a 3x3 grid with encrypted balances and
building choices).  Encrypted scalars are modelled by their plaintext
value together with the access-control data the contract attaches to
them (`FHE.allowThis` / `FHE.allow`); the FHE combinators (`eq`, `ge`,
`and`, `or`, `select`, `sub`) are modelled by their plaintext semantics,
with `euint8` values reduced mod 2^8 and `euint64` values mod 2^64.
Addresses and positions are natural numbers; the per-address storage
mappings become functions out of `Nat`.
-/

namespace ConfidentialGame

/-- 2^64, the modulus of `euint64` arithmetic. -/
def TWO64 : Nat := 18446744073709551616

/-- 2^8, the modulus of `euint8` arithmetic. -/
def TWO8 : Nat := 256

/-- An encrypted scalar: its plaintext value plus the access-control
state — whether the contract itself may decrypt it (`FHE.allowThis`)
and the list of addresses allowed to decrypt it (`FHE.allow`). -/
structure Ct where
  val : Nat
  aclThis : Bool
  acl : List Nat
deriving DecidableEq, Repr

namespace FHE

/-- `FHE.asEuint8`: trivial encryption of an 8-bit constant.  Fresh
ciphertexts carry no decryption rights. -/
def asEuint8 (n : Nat) : Ct := ⟨n % TWO8, false, []⟩

/-- `FHE.asEuint64`: trivial encryption of a 64-bit constant. -/
def asEuint64 (n : Nat) : Ct := ⟨n % TWO64, false, []⟩

/-- `FHE.fromExternal`: an externally encrypted `euint8` input; its
plaintext is an 8-bit value. -/
def fromExternal (n : Nat) : Ct := ⟨n % TWO8, false, []⟩

/-- `FHE.eq` on encrypted integers (an `ebool` is modelled as `Bool`). -/
def eq (a b : Ct) : Bool := a.val == b.val

/-- `FHE.eq` on `ebool` values. -/
def eqB (a b : Bool) : Bool := a == b

/-- `FHE.ge`: `a ≥ b`. -/
def ge (a b : Ct) : Bool := decide (b.val ≤ a.val)

/-- `FHE.and` on `ebool`. -/
def and (a b : Bool) : Bool := a && b

/-- `FHE.or` on `ebool`. -/
def or (a b : Bool) : Bool := a || b

/-- `FHE.select`: oblivious choice between two ciphertexts.  The result
is a fresh ciphertext (no decryption rights yet). -/
def select (c : Bool) (a b : Ct) : Ct := ⟨if c then a.val else b.val, false, []⟩

/-- `FHE.sub` on `euint64`: wrap-around subtraction mod 2^64 (the
arguments are `euint64` values, i.e. below 2^64). -/
def sub (a b : Ct) : Ct := ⟨(a.val + TWO64 - b.val) % TWO64, false, []⟩

/-- `FHE.allowThis`: grant the contract decryption rights. -/
def allowThis (c : Ct) : Ct := { c with aclThis := true }

/-- `FHE.allow`: grant an address decryption rights. -/
def allow (c : Ct) (who : Nat) : Ct := { c with acl := who :: c.acl }

end FHE

/-- `GRID_SIZE = GRID_WIDTH * GRID_WIDTH = 9`. -/
def GRID_SIZE : Nat := 9

/-- `STARTING_GOLD = 10_000`. -/
def STARTING_GOLD : Nat := 10000

/-- Status code 0: success. -/
def STATUS_SUCCESS : Nat := 0

/-- Status code 1: invalid building. -/
def STATUS_INVALID_BUILDING : Nat := 1

/-- Status code 2: tile occupied. -/
def STATUS_TILE_TAKEN : Nat := 2

/-- Status code 3: insufficient funds. -/
def STATUS_NO_FUNDS : Nat := 3

/-- The contract's custom revert reasons. -/
inductive GameError
  | alreadyJoined
  | notJoined
  | invalidPosition (position : Nat)
deriving DecidableEq, Repr

/-- The contract storage: `_hasJoined`, `_balances`, `_buildings` and
`_lastPlacementStatus`, each a mapping keyed by address (and, for the
grid, by position). -/
structure GameState where
  hasJoined : Nat → Bool
  balances : Nat → Ct
  buildings : Nat → Nat → Ct
  lastStatus : Nat → Ct

/-- A freshly deployed contract: Solidity mappings default to zero
values with no decryption rights. -/
def initialState : GameState :=
  { hasJoined := fun _ => false
    balances := fun _ => ⟨0, false, []⟩
    buildings := fun _ _ => ⟨0, false, []⟩
    lastStatus := fun _ => ⟨0, false, []⟩ }

/-- `_isValidBuilding`: an OR of the four equality tests against 1–4. -/
def _isValidBuilding (buildingType : Ct) : Bool :=
  let isOne := FHE.eq buildingType (FHE.asEuint8 1)
  let isTwo := FHE.eq buildingType (FHE.asEuint8 2)
  let isThree := FHE.eq buildingType (FHE.asEuint8 3)
  let isFour := FHE.eq buildingType (FHE.asEuint8 4)
  FHE.or (FHE.or isOne isTwo) (FHE.or isThree isFour)

/-- `_buildingCost`: a chain of selects keyed on the equality tests,
defaulting to 0, mapping type 1/2/3/4 to cost 100/200/400/1000. -/
def _buildingCost (buildingType : Ct) : Ct :=
  let cost := FHE.asEuint64 0
  let cost := FHE.select (FHE.eq buildingType (FHE.asEuint8 1)) (FHE.asEuint64 100) cost
  let cost := FHE.select (FHE.eq buildingType (FHE.asEuint8 2)) (FHE.asEuint64 200) cost
  let cost := FHE.select (FHE.eq buildingType (FHE.asEuint8 3)) (FHE.asEuint64 400) cost
  let cost := FHE.select (FHE.eq buildingType (FHE.asEuint8 4)) (FHE.asEuint64 1000) cost
  cost

/-- `_placementStatus`: default SUCCESS, obliviously overridden in
order by INVALID_BUILDING, TILE_TAKEN, NO_FUNDS, and finally forced
back to SUCCESS when `canPlace` holds. -/
def _placementStatus (isValid isEmpty hasFunds canPlace : Bool) : Ct :=
  let status := FHE.asEuint8 STATUS_SUCCESS
  let status := FHE.select (FHE.eqB isValid false) (FHE.asEuint8 STATUS_INVALID_BUILDING) status
  let tileBlocked := FHE.and (FHE.eqB isValid true) (FHE.eqB isEmpty false)
  let status := FHE.select tileBlocked (FHE.asEuint8 STATUS_TILE_TAKEN) status
  let fundsCheckRequired := FHE.and (FHE.eqB isValid true) (FHE.eqB isEmpty true)
  let lacksFunds := FHE.and fundsCheckRequired (FHE.eqB hasFunds false)
  let status := FHE.select lacksFunds (FHE.asEuint8 STATUS_NO_FUNDS) status
  FHE.select canPlace (FHE.asEuint8 STATUS_SUCCESS) status

/-- The state produced by a `joinGame` call that passed the
already-joined check.  The contract stores each fresh ciphertext and
then grants decryption rights to itself and to the caller on exactly
that ciphertext; granting after storing acts on the stored handle, so
the net stored value carries both grants.  The loop writes the same
`emptyTile` handle into the nine grid slots `0 ≤ i < GRID_SIZE`. -/
def joinBody (sender : Nat) (s : GameState) : GameState :=
  let startingGold := FHE.allow (FHE.allowThis (FHE.asEuint64 STARTING_GOLD)) sender
  let emptyTile := FHE.allow (FHE.allowThis (FHE.asEuint8 0)) sender
  let status := FHE.allow (FHE.allowThis (FHE.asEuint8 STATUS_SUCCESS)) sender
  { hasJoined := fun x => if x = sender then true else s.hasJoined x
    balances := fun x => if x = sender then startingGold else s.balances x
    buildings := fun x q => if x = sender ∧ q < GRID_SIZE then emptyTile else s.buildings x q
    lastStatus := fun x => if x = sender then status else s.lastStatus x }

/-- `joinGame`: reverts with `AlreadyJoined` when the caller has
joined, otherwise commits `joinBody`. -/
def joinGame (sender : Nat) (s : GameState) : Except GameError GameState :=
  if s.hasJoined sender then .error .alreadyJoined
  else .ok (joinBody sender s)

/-- The state produced by a `placeBuilding` call that passed both
structural checks; mirrors the contract body line by line. -/
def placeBody (sender pos buildingType : Nat) (s : GameState) : GameState :=
  let encryptedType := FHE.fromExternal buildingType
  let cost := _buildingCost encryptedType
  let isValid := _isValidBuilding encryptedType
  let existing := s.buildings sender pos
  let isEmpty := FHE.eq existing (FHE.asEuint8 0)
  let balance := s.balances sender
  let hasFunds := FHE.ge balance cost
  let canPlace := FHE.and isValid (FHE.and isEmpty hasFunds)
  let resultingBuilding := FHE.allow (FHE.allowThis (FHE.select canPlace encryptedType existing)) sender
  let spend := FHE.select canPlace cost (FHE.asEuint64 0)
  let updatedBalance := FHE.allow (FHE.allowThis (FHE.sub balance spend)) sender
  let status := FHE.allow (FHE.allowThis (_placementStatus isValid isEmpty hasFunds canPlace)) sender
  { hasJoined := s.hasJoined
    balances := fun x => if x = sender then updatedBalance else s.balances x
    buildings := fun x q => if x = sender ∧ q = pos then resultingBuilding else s.buildings x q
    lastStatus := fun x => if x = sender then status else s.lastStatus x }

/-- `placeBuilding`: reverts with `NotJoined` when the caller has not
joined, then with `InvalidPosition` when `pos ≥ GRID_SIZE`, otherwise
commits `placeBody`. -/
def placeBuilding (sender pos buildingType : Nat) (s : GameState) : Except GameError GameState :=
  if s.hasJoined sender = false then .error .notJoined
  else if GRID_SIZE ≤ pos then .error (.invalidPosition pos)
  else .ok (placeBody sender pos buildingType s)

/-- A `joinGame` transaction as seen from the chain: a revert leaves
the state unchanged. -/
def applyJoin (sender : Nat) (s : GameState) : GameState :=
  match joinGame sender s with
  | .ok s' => s'
  | .error _ => s

/-- A `placeBuilding` transaction as seen from the chain: a revert
leaves the state unchanged. -/
def applyPlace (sender pos buildingType : Nat) (s : GameState) : GameState :=
  match placeBuilding sender pos buildingType s with
  | .ok s' => s'
  | .error _ => s

/-- States reachable from deployment by any sequence of successful
`joinGame` and `placeBuilding` transactions. -/
inductive Reachable : GameState → Prop
  | init : Reachable initialState
  | join (a : Nat) (s s' : GameState) :
      Reachable s → joinGame a s = .ok s' → Reachable s'
  | place (a p t : Nat) (s s' : GameState) :
      Reachable s → placeBuilding a p t s = .ok s' → Reachable s'

/-- A ciphertext carries decryption rights for both the contract and
the given address. -/
def grantedTo (c : Ct) (who : Nat) : Prop := c.aclThis = true ∧ who ∈ c.acl

/-- The accept decision computed inside `placeBuilding` for caller `a`,
position `p`, plaintext proposed type `t`, in state `s`. -/
def canPlaceAt (a p t : Nat) (s : GameState) : Bool :=
  FHE.and (_isValidBuilding (FHE.fromExternal t))
    (FHE.and (FHE.eq (s.buildings a p) (FHE.asEuint8 0))
      (FHE.ge (s.balances a) (_buildingCost (FHE.fromExternal t))))

/-! ## Evaluation lemmas -/

lemma isValid_iff (t : Nat) (ht : t < TWO8) :
    _isValidBuilding (FHE.fromExternal t) = true ↔ (t = 1 ∨ t = 2 ∨ t = 3 ∨ t = 4) := by
  have h : t % 256 = t := Nat.mod_eq_of_lt (by simpa [TWO8] using ht)
  simp [_isValidBuilding, FHE.fromExternal, FHE.eq, FHE.asEuint8, FHE.or, TWO8, h]
  tauto

lemma fromExternal_mod (t : Nat) : FHE.fromExternal (t % TWO8) = FHE.fromExternal t := by
  have h : t % TWO8 < TWO8 := Nat.mod_lt t (by simp [TWO8])
  simp [FHE.fromExternal, Nat.mod_eq_of_lt h]

lemma cost_val (t : Nat) (ht : t < TWO8) :
    (_buildingCost (FHE.fromExternal t)).val =
      if t = 1 then 100 else if t = 2 then 200 else if t = 3 then 400
      else if t = 4 then 1000 else 0 := by
  have h : t % 256 = t := Nat.mod_eq_of_lt (by simpa [TWO8] using ht)
  simp [_buildingCost, FHE.fromExternal, FHE.eq, FHE.asEuint8, FHE.asEuint64,
    FHE.select, TWO8, TWO64, h]
  split_ifs <;> simp_all

lemma cost_le (x : Ct) : (_buildingCost x).val ≤ 1000 := by
  simp [_buildingCost, FHE.select, FHE.asEuint64, FHE.eq, TWO64]
  split_ifs <;> simp

lemma canPlaceAt_iff (a p t : Nat) (s : GameState) :
    canPlaceAt a p t s = true ↔
      (_isValidBuilding (FHE.fromExternal t) = true ∧ (s.buildings a p).val = 0 ∧
        (_buildingCost (FHE.fromExternal t)).val ≤ (s.balances a).val) := by
  simp [canPlaceAt, FHE.and, FHE.eq, FHE.ge, FHE.asEuint8, TWO8, Bool.and_eq_true]

/-! ## Unfolding lemmas for the two entry points -/

lemma join_ok {a : Nat} {s : GameState} (hj : s.hasJoined a = false) :
    joinGame a s = .ok (joinBody a s) := by
  simp [joinGame, hj]

lemma join_ok_inv {a : Nat} {s s' : GameState} (h : joinGame a s = .ok s') :
    s.hasJoined a = false ∧ s' = joinBody a s := by
  unfold joinGame at h
  by_cases h1 : s.hasJoined a
  · simp [h1] at h
  · simp [h1] at h
    exact ⟨by simpa using h1, h.symm⟩

lemma place_ok {a p : Nat} {s : GameState} (t : Nat)
    (hj : s.hasJoined a = true) (hp : p < GRID_SIZE) :
    placeBuilding a p t s = .ok (placeBody a p t s) := by
  have h2 : ¬ (GRID_SIZE ≤ p) := Nat.not_le.mpr hp
  simp [placeBuilding, hj, h2]

lemma place_ok_inv {a p t : Nat} {s s' : GameState}
    (h : placeBuilding a p t s = .ok s') :
    s.hasJoined a = true ∧ p < GRID_SIZE ∧ s' = placeBody a p t s := by
  unfold placeBuilding at h
  by_cases h1 : s.hasJoined a = false
  · simp [h1] at h
  · by_cases h2 : GRID_SIZE ≤ p
    · simp [h1, h2] at h
    · simp [h1, h2] at h
      refine ⟨?_, Nat.lt_of_not_le h2, h.symm⟩
      revert h1
      cases s.hasJoined a <;> simp

/-! ## Field evaluation of `placeBody` -/

lemma placeBody_hasJoined (a p t : Nat) (s : GameState) :
    (placeBody a p t s).hasJoined = s.hasJoined := rfl

lemma placeBody_buildings_val (a p t : Nat) (s : GameState) :
    ((placeBody a p t s).buildings a p).val =
      if canPlaceAt a p t s then t % TWO8 else (s.buildings a p).val := by
  simp [placeBody, canPlaceAt, FHE.allow, FHE.allowThis, FHE.select, FHE.fromExternal]

lemma placeBody_balances_val (a p t : Nat) (s : GameState) :
    ((placeBody a p t s).balances a).val =
      ((s.balances a).val + TWO64 -
        (if canPlaceAt a p t s then (_buildingCost (FHE.fromExternal t)).val else 0)) % TWO64 := by
  by_cases hc : canPlaceAt a p t s = true
  · unfold canPlaceAt at hc
    simp [placeBody, FHE.allow, FHE.allowThis, FHE.select, FHE.sub, FHE.asEuint64,
      canPlaceAt, hc]
  · unfold canPlaceAt at hc
    rw [Bool.not_eq_true] at hc
    simp [placeBody, FHE.allow, FHE.allowThis, FHE.select, FHE.sub, FHE.asEuint64,
      canPlaceAt, hc, TWO64]

lemma placeBody_balances_frame (a p t x : Nat) (s : GameState) (hx : x ≠ a) :
    (placeBody a p t s).balances x = s.balances x := by
  simp [placeBody, hx]

lemma placeBody_buildings_frame (a p t x q : Nat) (s : GameState)
    (hx : ¬ (x = a ∧ q = p)) :
    (placeBody a p t s).buildings x q = s.buildings x q := by
  simp [placeBody, hx]

lemma canPlaceAt_congr (a p t : Nat) (s s' : GameState)
    (h1 : (s'.buildings a p).val = (s.buildings a p).val)
    (h2 : (s'.balances a).val = (s.balances a).val) :
    canPlaceAt a p t s' = canPlaceAt a p t s := by
  simp [canPlaceAt, FHE.eq, FHE.ge, FHE.and, h1, h2]

lemma applyPlace_hasJoined (a p t : Nat) (s : GameState) :
    (applyPlace a p t s).hasJoined = s.hasJoined := by
  unfold applyPlace
  cases h : placeBuilding a p t s with
  | ok s' =>
      obtain ⟨-, -, rfl⟩ := place_ok_inv h
      rfl
  | error e => rfl

lemma applyPlace_reject (a p t : Nat) (s : GameState)
    (hj : s.hasJoined a = true) (hp : p < GRID_SIZE)
    (hb : (s.balances a).val < TWO64)
    (hc : canPlaceAt a p t s = false) :
    ((applyPlace a p t s).buildings a p).val = (s.buildings a p).val ∧
      ((applyPlace a p t s).balances a).val = (s.balances a).val := by
  have hok := place_ok (s := s) (a := a) (p := p) t hj hp
  unfold applyPlace
  rw [hok]
  constructor
  · rw [placeBody_buildings_val, hc]
    simp
  · rw [placeBody_balances_val, hc]
    simp [TWO64] at hb ⊢
    omega

lemma applyPlace_reject_iter (a p t : Nat) (s : GameState)
    (hj : s.hasJoined a = true) (hp : p < GRID_SIZE)
    (hb : (s.balances a).val < TWO64)
    (hc : canPlaceAt a p t s = false) :
    ∀ n, (((applyPlace a p t)^[n] s).buildings a p).val = (s.buildings a p).val ∧
      (((applyPlace a p t)^[n] s).balances a).val = (s.balances a).val := by
  intro n
  induction n with
  | zero => exact ⟨rfl, rfl⟩
  | succ n ih =>
      rw [Function.iterate_succ_apply']
      have hjn : ((applyPlace a p t)^[n] s).hasJoined a = true := by
        have : ∀ m, ((applyPlace a p t)^[m] s).hasJoined = s.hasJoined := by
          intro m
          induction m with
          | zero => rfl
          | succ m ihm => rw [Function.iterate_succ_apply', applyPlace_hasJoined, ihm]
        rw [this n, hj]
      have hbn : (((applyPlace a p t)^[n] s).balances a).val < TWO64 := by
        rw [ih.2]; exact hb
      have hcn : canPlaceAt a p t ((applyPlace a p t)^[n] s) = false := by
        rw [canPlaceAt_congr a p t s ((applyPlace a p t)^[n] s) ih.1 ih.2]
        exact hc
      have step := applyPlace_reject a p t ((applyPlace a p t)^[n] s) hjn hp hbn hcn
      exact ⟨step.1.trans ih.1, step.2.trans ih.2⟩

lemma placeBody_balance_le (a p t : Nat) (s : GameState)
    (hb : (s.balances a).val < TWO64) :
    ((placeBody a p t s).balances a).val ≤ (s.balances a).val := by
  rw [placeBody_balances_val]
  by_cases hc : canPlaceAt a p t s = true
  · have hle : (_buildingCost (FHE.fromExternal t)).val ≤ (s.balances a).val :=
      ((canPlaceAt_iff a p t s).mp hc).2.2
    rw [hc]
    simp [TWO64] at hb ⊢
    omega
  · rw [Bool.not_eq_true] at hc
    rw [hc]
    simp [TWO64] at hb ⊢
    omega

/-- Invariant: every stored balance in a reachable state is at most
the starting gold. -/
lemma balances_bounded (s : GameState) (hs : Reachable s) :
    ∀ a, (s.balances a).val ≤ STARTING_GOLD := by
  induction hs with
  | init => intro a; simp [initialState, STARTING_GOLD]
  | join b s₀ s₁ hr hok ih =>
      obtain ⟨hj, rfl⟩ := join_ok_inv hok
      intro a
      by_cases hab : a = b
      · subst hab
        simp [joinBody, FHE.allow, FHE.allowThis, FHE.asEuint64, STARTING_GOLD, TWO64]
      · simp only [joinBody, if_neg hab]
        exact ih a
  | place b p t s₀ s₁ hr hok ih =>
      obtain ⟨hjb, hp, rfl⟩ := place_ok_inv hok
      intro a
      by_cases hab : a = b
      · subst hab
        have hb64 : (s₀.balances a).val < TWO64 :=
          lt_of_le_of_lt (ih a) (by simp [STARTING_GOLD, TWO64])
        exact le_trans (placeBody_balance_le a p t s₀ hb64) (ih a)
      · rw [placeBody_balances_frame b p t a s₀ hab]
        exact ih a

/-! ## Claim theorems -/

/-- C2: for every combination of the booleans `isValid`, `isEmpty`,
`hasFunds`, with `canPlace` their conjunction, `_placementStatus`
returns SUCCESS exactly when `canPlace` holds and otherwise names the
first failing check in the order invalid building, tile taken,
insufficient funds. -/
theorem placementStatus_table :
    ∀ v e f : Bool,
      ((_placementStatus v e f (FHE.and v (FHE.and e f))).val =
        (if v && (e && f) then STATUS_SUCCESS
         else if v = false then STATUS_INVALID_BUILDING
         else if e = false then STATUS_TILE_TAKEN
         else STATUS_NO_FUNDS)) ∧
      ((_placementStatus v e f (FHE.and v (FHE.and e f))).val = STATUS_SUCCESS ↔
        (v && (e && f)) = true) := by
  decide

/-- C3: for every 8-bit plaintext building type `t`, `_isValidBuilding`
holds exactly when `t ∈ {1,2,3,4}`, `_buildingCost` maps 1/2/3/4 to
100/200/400/1000 and everything else to 0, and an accepted placement
(`canPlace = true`) forces validity, so a zero cost for an invalid type
can never produce an accepted free placement. -/
theorem buildingCatalog_correct (t : Nat) (ht : t < TWO8) :
    (_isValidBuilding (FHE.fromExternal t) = true ↔ (t = 1 ∨ t = 2 ∨ t = 3 ∨ t = 4)) ∧
    ((_buildingCost (FHE.fromExternal t)).val =
      if t = 1 then 100 else if t = 2 then 200 else if t = 3 then 400
      else if t = 4 then 1000 else 0) ∧
    (∀ e b : Ct,
      FHE.and (_isValidBuilding (FHE.fromExternal t))
        (FHE.and (FHE.eq e (FHE.asEuint8 0)) (FHE.ge b (_buildingCost (FHE.fromExternal t)))) = true →
      _isValidBuilding (FHE.fromExternal t) = true) := by
  refine ⟨isValid_iff t ht, cost_val t ht, ?_⟩
  intro e b h
  simp [FHE.and, Bool.and_eq_true] at h
  exact h.1

/-- C1: a `placeBuilding` call that passes the structural checks
succeeds, and with plaintext proposed type `t`, existing tile value `e`
and balance `b`, letting `canPlace = (t ∈ {1,2,3,4}) ∧ e = 0 ∧
b ≥ cost t`: the stored tile becomes `t` and the balance becomes
`b - cost t` when `canPlace` holds, while a rejected placement,
repeated any number of times, leaves the tile and the balance exactly
unchanged. -/
theorem placeBuilding_core (a p t : Nat) (s : GameState)
    (hj : s.hasJoined a = true) (hp : p < GRID_SIZE) (ht : t < TWO8)
    (hb : (s.balances a).val < TWO64) :
    ∃ s', placeBuilding a p t s = .ok s' ∧
      (((t = 1 ∨ t = 2 ∨ t = 3 ∨ t = 4) ∧ (s.buildings a p).val = 0 ∧
          (_buildingCost (FHE.fromExternal t)).val ≤ (s.balances a).val) →
        (s'.buildings a p).val = t ∧
          (s'.balances a).val =
            (s.balances a).val - (_buildingCost (FHE.fromExternal t)).val) ∧
      (¬ ((t = 1 ∨ t = 2 ∨ t = 3 ∨ t = 4) ∧ (s.buildings a p).val = 0 ∧
          (_buildingCost (FHE.fromExternal t)).val ≤ (s.balances a).val) →
        ∀ n : Nat,
          (((applyPlace a p t)^[n] s).buildings a p).val = (s.buildings a p).val ∧
            (((applyPlace a p t)^[n] s).balances a).val = (s.balances a).val) := by
  refine ⟨placeBody a p t s, place_ok t hj hp, ?_, ?_⟩
  · intro hcp
    have hcb : canPlaceAt a p t s = true :=
      (canPlaceAt_iff a p t s).mpr ⟨(isValid_iff t ht).mpr hcp.1, hcp.2.1, hcp.2.2⟩
    have hmod : t % TWO8 = t := Nat.mod_eq_of_lt ht
    constructor
    · rw [placeBody_buildings_val, hcb]
      simp [hmod]
    · rw [placeBody_balances_val, hcb]
      have hcle := hcp.2.2
      simp only [if_pos rfl]
      simp [TWO64] at hb ⊢
      omega
  · intro hcp
    have hcb : canPlaceAt a p t s = false := by
      rcases Bool.eq_false_or_eq_true (canPlaceAt a p t s) with h | h
      · obtain ⟨hv, he, hf⟩ := (canPlaceAt_iff a p t s).mp h
        exact absurd ⟨(isValid_iff t ht).mp hv, he, hf⟩ hcp
      · exact h
    exact applyPlace_reject_iter a p t s hj hp hb hcb

/-- Witness for C1: the spec's own scenario — after joining, placing
type 2 at position 4 stores tile 2 and leaves balance 9800. -/
theorem placeBuilding_core_witness :
    ((applyPlace 0 4 2 (applyJoin 0 initialState)).buildings 0 4).val = 2 ∧
      ((applyPlace 0 4 2 (applyJoin 0 initialState)).balances 0).val = 9800 := by
  obtain ⟨s', hok, hacc, -⟩ :=
    placeBuilding_core 0 4 2 (applyJoin 0 initialState)
      (by decide) (by decide) (by decide) (by decide)
  have hcp : (2 = 1 ∨ 2 = 2 ∨ 2 = 3 ∨ 2 = 4) ∧
      ((applyJoin 0 initialState).buildings 0 4).val = 0 ∧
      (_buildingCost (FHE.fromExternal 2)).val ≤
        ((applyJoin 0 initialState).balances 0).val := by decide
  obtain ⟨h1, h2⟩ := hacc hcp
  have heq : applyPlace 0 4 2 (applyJoin 0 initialState) = s' := by
    unfold applyPlace
    rw [hok]
  constructor
  · rw [heq]; exact h1
  · rw [heq, h2]; decide

/-- C4: in every reachable state every stored balance is a natural
number bounded by the starting 10,000, and a successful `placeBuilding`
never increases it — the 64-bit subtraction never wraps below zero,
since the amount subtracted is 0 on rejection and a cost already
checked against the balance on acceptance. -/
theorem balance_invariant (s : GameState) (hs : Reachable s) (a : Nat) :
    (s.balances a).val ≤ STARTING_GOLD ∧
      ∀ p t s', placeBuilding a p t s = .ok s' →
        (s'.balances a).val ≤ (s.balances a).val := by
  refine ⟨balances_bounded s hs a, ?_⟩
  intro p t s' hok
  obtain ⟨hj, hp, rfl⟩ := place_ok_inv hok
  have hb64 : (s.balances a).val < TWO64 :=
    lt_of_le_of_lt (balances_bounded s hs a) (by simp [STARTING_GOLD, TWO64])
  exact placeBody_balance_le a p t s hb64

/-- Witness for C4 at the deployment state. -/
theorem balance_invariant_witness : (initialState.balances 0).val ≤ STARTING_GOLD :=
  (balance_invariant initialState Reachable.init 0).1

/-- C10: in every reachable state, every stored grid tile decrypts to
a value in {0,1,2,3,4} (stated as ≤ 4): tiles start at 0 on join, and
a placement only writes the proposed type when the accept decision
holds, which requires the type to be one of 1–4. -/
theorem tiles_in_range (s : GameState) (hs : Reachable s) (a p : Nat) :
    (s.buildings a p).val ≤ 4 := by
  induction hs with
  | init => simp [initialState]
  | join b s₀ s₁ hr hok ih =>
      obtain ⟨hj, rfl⟩ := join_ok_inv hok
      by_cases hc : a = b ∧ p < GRID_SIZE
      · simp [joinBody, hc, FHE.allow, FHE.allowThis, FHE.asEuint8, TWO8]
      · simp only [joinBody, if_neg hc]
        exact ih
  | place b q t s₀ s₁ hr hok ih =>
      obtain ⟨hjb, hq, rfl⟩ := place_ok_inv hok
      by_cases hc : a = b ∧ p = q
      · obtain ⟨rfl, rfl⟩ := hc
        rw [placeBody_buildings_val]
        by_cases hcp : canPlaceAt a p t s₀ = true
        · rw [hcp]
          have hvt : _isValidBuilding (FHE.fromExternal (t % TWO8)) = true := by
            rw [fromExternal_mod]
            exact ((canPlaceAt_iff a p t s₀).mp hcp).1
          have hmem :=
            (isValid_iff (t % TWO8) (Nat.mod_lt t (by simp [TWO8]))).mp hvt
          rcases hmem with h | h | h | h <;> simp [h]
        · rw [Bool.not_eq_true] at hcp
          rw [hcp]
          simpa using ih
      · rw [placeBody_buildings_frame b q t a p s₀ hc]
        exact ih

/-- Witness for C10 at the deployment state. -/
theorem tiles_in_range_witness : (initialState.buildings 0 0).val ≤ 4 :=
  tiles_in_range initialState Reachable.init 0 0

/-- Witness for C3 at the concrete type 2. -/
theorem buildingCatalog_correct_witness :
    _isValidBuilding (FHE.fromExternal 2) = true ∧
      (_buildingCost (FHE.fromExternal 2)).val = 200 := by
  have h := buildingCatalog_correct 2 (by decide)
  exact ⟨h.1.mpr (Or.inr (Or.inl rfl)), by simpa using h.2.1⟩

/-- C5: `joinGame` reverts with `AlreadyJoined` exactly when the caller
has joined; `placeBuilding` reverts exactly when the caller has not
joined (`NotJoined`, taking precedence) or the position is outside 0–8
(`InvalidPosition`); every revert leaves the whole state unchanged, and
no other input makes either operation fail. -/
theorem structural_errors (a p t : Nat) (s : GameState) :
    (s.hasJoined a = true →
      joinGame a s = .error .alreadyJoined ∧ applyJoin a s = s) ∧
    (s.hasJoined a = false → ∃ s', joinGame a s = .ok s') ∧
    (s.hasJoined a = false →
      placeBuilding a p t s = .error .notJoined ∧ applyPlace a p t s = s) ∧
    (s.hasJoined a = true → GRID_SIZE ≤ p →
      placeBuilding a p t s = .error (.invalidPosition p) ∧ applyPlace a p t s = s) ∧
    (s.hasJoined a = true → p < GRID_SIZE → ∃ s', placeBuilding a p t s = .ok s') := by
  refine ⟨?_, ?_, ?_, ?_, ?_⟩
  · intro hj
    have h1 : joinGame a s = .error .alreadyJoined := by simp [joinGame, hj]
    exact ⟨h1, by simp [applyJoin, h1]⟩
  · intro hj
    exact ⟨joinBody a s, join_ok hj⟩
  · intro hj
    have h1 : placeBuilding a p t s = .error .notJoined := by simp [placeBuilding, hj]
    exact ⟨h1, by simp [applyPlace, h1]⟩
  · intro hj hp
    have h1 : placeBuilding a p t s = .error (.invalidPosition p) := by
      simp [placeBuilding, hj, hp]
    exact ⟨h1, by simp [applyPlace, h1]⟩
  · intro hj hp
    exact ⟨placeBody a p t s, place_ok t hj hp⟩

/-- Witness for C5: a placement before joining reverts with
`NotJoined`, and a second join reverts with `AlreadyJoined`. -/
theorem structural_errors_witness :
    placeBuilding 0 0 1 initialState = .error .notJoined ∧
      joinGame 0 (applyJoin 0 initialState) = .error .alreadyJoined := by
  have h₁ := structural_errors 0 0 1 initialState
  have h₂ := structural_errors 0 0 1 (applyJoin 0 initialState)
  exact ⟨(h₁.2.2.1 (by decide)).1, (h₂.1 (by decide)).1⟩

/-- C6: a successful first `joinGame` sets the joined flag, a balance
of exactly 10,000, all nine grid slots to 0 and the last status to
SUCCESS. -/
theorem join_initializes (a : Nat) (s s' : GameState)
    (h : joinGame a s = .ok s') :
    s'.hasJoined a = true ∧ (s'.balances a).val = STARTING_GOLD ∧
      (∀ p, p < GRID_SIZE → (s'.buildings a p).val = 0) ∧
      (s'.lastStatus a).val = STATUS_SUCCESS := by
  obtain ⟨hj, rfl⟩ := join_ok_inv h
  refine ⟨by simp [joinBody], ?_, ?_, ?_⟩
  · simp [joinBody, FHE.allow, FHE.allowThis, FHE.asEuint64, STARTING_GOLD, TWO64]
  · intro p hp
    simp [joinBody, hp, FHE.allow, FHE.allowThis, FHE.asEuint8, TWO8]
  · simp [joinBody, FHE.allow, FHE.allowThis, FHE.asEuint8, STATUS_SUCCESS, TWO8]

/-- Witness for C6 for the first player on a fresh deployment. -/
theorem join_initializes_witness :
    ((applyJoin 0 initialState).balances 0).val = STARTING_GOLD ∧
      ((applyJoin 0 initialState).buildings 0 3).val = 0 := by
  have h := join_initializes 0 initialState (applyJoin 0 initialState) (by rfl)
  exact ⟨h.2.1, h.2.2.1 3 (by decide)⟩

/-- C7: once a stored tile holds a non-zero value, no subsequent
successful `placeBuilding` call — whatever its caller, position or
proposed type — changes that tile's plaintext value. -/
theorem tile_permanence (a p b q t : Nat) (s s' : GameState)
    (hnz : (s.buildings a p).val ≠ 0)
    (h : placeBuilding b q t s = .ok s') :
    (s'.buildings a p).val = (s.buildings a p).val := by
  obtain ⟨hjb, hq, rfl⟩ := place_ok_inv h
  by_cases hc : a = b ∧ p = q
  · obtain ⟨rfl, rfl⟩ := hc
    rw [placeBody_buildings_val]
    have hcp : canPlaceAt a p t s = false := by
      rcases Bool.eq_false_or_eq_true (canPlaceAt a p t s) with hx | hx
      · exact absurd ((canPlaceAt_iff a p t s).mp hx).2.1 hnz
      · exact hx
    rw [hcp]
    simp
  · rw [placeBody_buildings_frame b q t a p s hc]

/-- Witness for C7: a second placement on the occupied tile 0 keeps
the first building. -/
theorem tile_permanence_witness :
    ((applyPlace 0 0 3 (applyPlace 0 0 1 (applyJoin 0 initialState))).buildings 0 0).val =
      ((applyPlace 0 0 1 (applyJoin 0 initialState)).buildings 0 0).val :=
  tile_permanence 0 0 0 0 3 (applyPlace 0 0 1 (applyJoin 0 initialState))
    (applyPlace 0 0 3 (applyPlace 0 0 1 (applyJoin 0 initialState)))
    (by decide) (by rfl)

/-- C8: every value a mutation stores into a player's account carries
decryption rights for both the contract and the owning identity: the
eleven values written by `joinGame` and the three rewritten by every
`placeBuilding`. -/
theorem acl_after_mutations (a p t : Nat) (s s₁ s₂ : GameState) :
    (joinGame a s = .ok s₁ →
      grantedTo (s₁.balances a) a ∧
        (∀ q, q < GRID_SIZE → grantedTo (s₁.buildings a q) a) ∧
        grantedTo (s₁.lastStatus a) a) ∧
    (placeBuilding a p t s = .ok s₂ →
      grantedTo (s₂.balances a) a ∧ grantedTo (s₂.buildings a p) a ∧
        grantedTo (s₂.lastStatus a) a) := by
  constructor
  · intro h
    obtain ⟨hj, rfl⟩ := join_ok_inv h
    refine ⟨?_, ?_, ?_⟩
    · simp [joinBody, grantedTo, FHE.allow, FHE.allowThis, FHE.asEuint64]
    · intro q hq
      simp [joinBody, hq, grantedTo, FHE.allow, FHE.allowThis, FHE.asEuint8]
    · simp [joinBody, grantedTo, FHE.allow, FHE.allowThis, FHE.asEuint8]
  · intro h
    obtain ⟨hj, hp, rfl⟩ := place_ok_inv h
    refine ⟨?_, ?_, ?_⟩ <;>
      simp [placeBody, grantedTo, FHE.allow, FHE.allowThis]

/-- Witness for C8 after a join and after a placement. -/
theorem acl_after_mutations_witness :
    grantedTo ((applyJoin 0 initialState).balances 0) 0 ∧
      grantedTo ((applyPlace 0 4 2 (applyJoin 0 initialState)).buildings 0 4) 0 := by
  have h₁ :=
    (acl_after_mutations 0 4 2 initialState (applyJoin 0 initialState) initialState).1
      (by rfl)
  have h₂ :=
    (acl_after_mutations 0 4 2 (applyJoin 0 initialState) initialState
      (applyPlace 0 4 2 (applyJoin 0 initialState))).2 (by rfl)
  exact ⟨h₁.1, h₂.2.1⟩

/-- C9: an operation by identity `a` — joining or placing, successful
or reverted — leaves every stored value of any other identity `b`
exactly unchanged. -/
theorem cross_identity_isolation (a b p t : Nat) (s : GameState) (hne : b ≠ a) :
    ((applyJoin a s).hasJoined b = s.hasJoined b ∧
      (applyJoin a s).balances b = s.balances b ∧
      (∀ q, (applyJoin a s).buildings b q = s.buildings b q) ∧
      (applyJoin a s).lastStatus b = s.lastStatus b) ∧
    ((applyPlace a p t s).hasJoined b = s.hasJoined b ∧
      (applyPlace a p t s).balances b = s.balances b ∧
      (∀ q, (applyPlace a p t s).buildings b q = s.buildings b q) ∧
      (applyPlace a p t s).lastStatus b = s.lastStatus b) := by
  constructor
  · unfold applyJoin
    cases h : joinGame a s with
    | error e => exact ⟨rfl, rfl, fun q => rfl, rfl⟩
    | ok s' =>
        obtain ⟨hj, rfl⟩ := join_ok_inv h
        refine ⟨?_, ?_, ?_, ?_⟩
        · simp [joinBody, hne]
        · simp [joinBody, hne]
        · intro q
          simp [joinBody, hne]
        · simp [joinBody, hne]
  · unfold applyPlace
    cases h : placeBuilding a p t s with
    | error e => exact ⟨rfl, rfl, fun q => rfl, rfl⟩
    | ok s' =>
        obtain ⟨hj, hp, rfl⟩ := place_ok_inv h
        refine ⟨rfl, ?_, ?_, ?_⟩
        · simp [placeBody, hne]
        · intro q
          simp [placeBody, hne]
        · simp [placeBody, hne]

/-- Witness for C9: player 0's join and placement leave player 1's
balance untouched. -/
theorem cross_identity_isolation_witness :
    (applyJoin 0 initialState).balances 1 = initialState.balances 1 ∧
      (applyPlace 0 4 2 (applyJoin 0 initialState)).balances 1 =
        (applyJoin 0 initialState).balances 1 := by
  have h₁ := cross_identity_isolation 0 1 4 2 initialState (by decide)
  have h₂ := cross_identity_isolation 0 1 4 2 (applyJoin 0 initialState) (by decide)
  exact ⟨h₁.1.2.1, h₂.2.2.1⟩

end ConfidentialGame
